import Mathlib

/-!
Verification of the sport80 sync scripts.

Shallow embedding of the core logic of
`update_supabase_from_sport80.py` and `sport80/sport80_http_client.py`:

* dict field lookup (`get_nested_value`),
* date resolution (`parse_event_date` over the six `strptime` formats),
* pagination traversal (`SportEightyHTTP.__collate_results` / `__next_page`),
* natural-key extraction, dedup filtering, id allocation and the per-candidate
  main loop of `main()`.

Python dicts are modelled by structures holding exactly the keys the code
reads; remote I/O (HTTP fetches, Supabase queries, batch inserts) is modelled
by explicit response values / functions supplied as parameters, with `none`
standing for a failed request (caught `RequestException`).
-/

namespace Sport80

/-! ### Field lookup: `get_nested_value` (update_supabase_from_sport80.py:39-47)

A Sport80 record is a Python dict.  The code reads it in two shapes: a flat
key (`data_dict.get(primary_key)`) or a table-derived shape
(`data_dict.get("columns", {}).get(column_name, {}).get("value")`).
`DataDict.columns` is `some m` when the `"columns"` key is present, and `m`
maps each column label directly to the `"value"` sub-key content (an absent
label or an absent/`None` sub-key both read as `none`, exactly as the chained
`.get` calls do).  `DataDict.flat` models the remaining top-level keys; a key
present with value `None` is observationally the same as an absent key for
`.get`, so both are `lookup = none` or `lookup = some none`. -/

structure DataDict where
  columns : Option (List (String × Option String))
  flat : List (String × Option String)
deriving DecidableEq, Repr

/-- `get_nested_value(data_dict, primary_key, column_name=None, sub_key="value")`:
`if column_name and "columns" in data_dict: return data_dict.get("columns", {}).get(column_name, {}).get(sub_key)`,
`return data_dict.get(primary_key)`.  Python truthiness of `column_name`
means: not `None` and not the empty string. -/
def get_nested_value (d : DataDict) (primaryKey : String) (columnName : Option String) : Option String :=
  match columnName, d.columns with
  | some cn, some cols =>
      if cn != "" then ((cols.lookup cn).join)
      else (d.flat.lookup primaryKey).join
  | _, _ => (d.flat.lookup primaryKey).join

/-- Python `a or b` on two optional strings: the first operand wins unless it
is falsy (`None` or `""`). -/
def pyOr (a b : Option String) : Option String :=
  match a with
  | some s => if s != "" then some s else b
  | none => b

/-- Python truthiness of an optional string (`if not x` tests). -/
def truthy : Option String → Bool
  | none => false
  | some s => s != ""

/-- Python `str.strip()`: drop leading and trailing whitespace. -/
def pyStrip (s : String) : String :=
  String.mk (((s.data.dropWhile Char.isWhitespace).reverse.dropWhile
    Char.isWhitespace).reverse)

/-- Python `str.lower()` (ASCII letters, all the code ever compares). -/
def pyLowerChar (c : Char) : Char :=
  if 'A' ≤ c && c ≤ 'Z' then Char.ofNat (c.toNat + 32) else c

def pyLower (s : String) : String := String.mk (s.data.map pyLowerChar)

/-- Python `str.split(sep)` for a one-character separator (the only kind the
code uses: `"/"`, `" "`, `"-"`, `":"`).  Always returns at least one piece;
adjacent separators produce empty pieces, as in Python. -/
def splitChar (sep : Char) : List Char → List (List Char)
  | [] => [[]]
  | c :: cs =>
      match splitChar sep cs with
      | [] => [[]]
      | h :: t => if c == sep then [] :: h :: t else (c :: h) :: t

def pySplit (sep : Char) (s : String) : List String :=
  (splitChar sep s.data).map String.mk

/-! ### Date parsing: `parse_event_date` (update_supabase_from_sport80.py:50-80)

`datetime.strptime` is embedded for exactly the six format strings in
`possible_formats`.  A parsed value is a calendar date (the code discards
time-of-day by splitting on `" "` before parsing, so only the date part of a
successful parse ever matters). -/

structure PyDate where
  year : Nat
  month : Nat
  day : Nat
deriving DecidableEq, Repr

/-- `datetime.min`: 0001-01-01. -/
def datetime_min : PyDate := ⟨1, 1, 1⟩

/-- `datetime` comparison, lexicographic on (year, month, day). -/
def pyDateLt (a b : PyDate) : Bool :=
  a.year < b.year ||
    (a.year == b.year &&
      (a.month < b.month || (a.month == b.month && a.day < b.day)))

/-- Decimal value of a digit string. -/
def digitsToNat (l : List Char) : Nat :=
  l.foldl (fun acc c => acc * 10 + (c.toNat - 48)) 0

/-- A run of 1 to `maxLen` decimal digits, as `strptime`'s `%Y` (`maxLen` 4)
and `%m`/`%d`/`%H`/`%M`/`%S` (`maxLen` 2) directives match between literal
delimiters. -/
def parseDigits (maxLen : Nat) (s : String) : Option Nat :=
  if 1 ≤ s.data.length && s.data.length ≤ maxLen && s.data.all Char.isDigit
  then some (digitsToNat s.data) else none

def isLeapYear (y : Nat) : Bool :=
  y % 4 == 0 && (y % 100 != 0 || y % 400 == 0)

def daysInMonth (y m : Nat) : Nat :=
  if m == 2 then (if isLeapYear y then 29 else 28)
  else if m == 4 || m == 6 || m == 9 || m == 11 then 30
  else 31

/-- `datetime(year, month, day)` construction: raises (here `none`) unless
`MINYEAR <= year <= MAXYEAR` and month/day are in calendar range. -/
def mkValidDate (y m d : Nat) : Option PyDate :=
  if 1 ≤ y && y ≤ 9999 && 1 ≤ m && m ≤ 12 && 1 ≤ d && d ≤ daysInMonth y m
  then some ⟨y, m, d⟩ else none

/-- `strptime(s, "%Y-%m-%d")`. -/
def strpDateYMD (s : String) : Option PyDate :=
  match pySplit '-' s with
  | [ys, ms, ds] =>
      match parseDigits 4 ys, parseDigits 2 ms, parseDigits 2 ds with
      | some y, some m, some d => mkValidDate y m d
      | _, _, _ => none
  | _ => none

/-- `strptime(s, "%d/%m/%Y")`. -/
def strpDateDMY (s : String) : Option PyDate :=
  match pySplit '/' s with
  | [ds, ms, ys] =>
      match parseDigits 2 ds, parseDigits 2 ms, parseDigits 4 ys with
      | some d, some m, some y => mkValidDate y m d
      | _, _, _ => none
  | _ => none

/-- `strptime(s, "%m/%d/%Y")`. -/
def strpDateMDY (s : String) : Option PyDate :=
  match pySplit '/' s with
  | [ms, ds, ys] =>
      match parseDigits 2 ms, parseDigits 2 ds, parseDigits 4 ys with
      | some m, some d, some y => mkValidDate y m d
      | _, _, _ => none
  | _ => none

/-- A valid `%H:%M:%S` time-of-day (seconds up to 61, as CPython accepts). -/
def validTime (s : String) : Bool :=
  match pySplit ':' s with
  | [hs, ms, ss] =>
      match parseDigits 2 hs, parseDigits 2 ms, parseDigits 2 ss with
      | some h, some m, some sec => h ≤ 23 && m ≤ 59 && sec ≤ 61
      | _, _, _ => false
  | _ => false

/-- `strptime` against a `"<date> %H:%M:%S"` format: the input must contain
exactly one space separating a date part and a valid time part. -/
def strpWithTime (dateParse : String → Option PyDate) (s : String) : Option PyDate :=
  match pySplit ' ' s with
  | [dpart, tpart] => if validTime tpart then dateParse dpart else none
  | _ => none

/-- `datetime.strptime` restricted to the six formats the script uses. -/
def strptime (fmt : String) (s : String) : Option PyDate :=
  if fmt == "%Y-%m-%d %H:%M:%S" then strpWithTime strpDateYMD s
  else if fmt == "%Y-%m-%d" then strpDateYMD s
  else if fmt == "%d/%m/%Y %H:%M:%S" then strpWithTime strpDateDMY s
  else if fmt == "%d/%m/%Y" then strpDateDMY s
  else if fmt == "%m/%d/%Y %H:%M:%S" then strpWithTime strpDateMDY s
  else if fmt == "%m/%d/%Y" then strpDateMDY s
  else none

/-- The `possible_formats` list (update_supabase_from_sport80.py:63-70). -/
def possible_formats : List String :=
  ["%Y-%m-%d %H:%M:%S", "%Y-%m-%d",
   "%d/%m/%Y %H:%M:%S", "%d/%m/%Y",
   "%m/%d/%Y %H:%M:%S", "%m/%d/%Y"]

/-- The `for fmt in possible_formats: try ... except: continue` loop: first
successful parse wins. -/
def tryFormats : List String → String → Option PyDate
  | [], _ => none
  | fmt :: rest, s =>
      match strptime fmt s with
      | some d => some d
      | none => tryFormats rest s

/-- `parse_event_date(event_data_dict)`.  The date string comes from
`get_nested_value(d, "date", "Start Date") or get_nested_value(d, "start_date")`;
a falsy value yields `datetime.min`.  The code recomputes
`str(date_str).split(" ")[0]` inside the format loop, but the value is
loop-invariant, so it is hoisted here. -/
def parse_event_date (e : DataDict) : PyDate :=
  match pyOr (get_nested_value e "date" (some "Start Date"))
             (get_nested_value e "start_date" none) with
  | none => datetime_min
  | some s =>
      if s == "" then datetime_min
      else
        match tryFormats possible_formats ((pySplit ' ' s).headD s) with
        | some d => d
        | none => datetime_min

/-- Zero-padded decimal rendering, as `strftime`'s `%Y`/`%m`/`%d` emit. -/
def padZeros (len : Nat) (n : Nat) : String :=
  let s := toString n
  String.mk (List.replicate (len - s.length) '0') ++ s

/-- `strftime("%Y-%m-%d")`. -/
def strftimeYMD (d : PyDate) : String :=
  padZeros 4 d.year ++ "-" ++ padZeros 2 d.month ++ "-" ++ padZeros 2 d.day

/-! ### Pagination: `SportEightyHTTP.__collate_results` / `__next_page`
(sport80/sport80_http_client.py:159-188)

A page response is a dict with an optional `next_page_url` cursor and a
`data` item array.  Cursors are opaque to the walker, modelled as `Nat`.
The remote endpoint (`self.http_session.post` inside `__next_page`, with its
`try/except` and `.ok` check) is modelled as `fetch : Nat → Option Page`,
`none` standing for any failed fetch.  The `while` loop is given fuel (an
upper bound on the number of fetch attempts); `none` as overall result means
the loop was still running when the fuel ran out, which never happens on the
finite chains the theorems consider. -/

structure Page where
  next_page_url : Option Nat
  data : List String
deriving DecidableEq, Repr

/-- `__collate_results(page_one, payload)`: `all_pages = {0: page_one}`, then
while the current page has a `next_page_url`, fetch it; on a failed fetch
`break` and return what was collected; otherwise append and continue.  The
returned dict `{0: p0, 1: p1, ...}` is modelled as the list
`[p0, p1, ...]` in ascending index order.  The constant `payload` argument
(re-sent with every request) is folded into `fetch`. -/
def collate_results (fetch : Nat → Option Page) : Nat → Page → Option (List Page)
  | 0, p =>
      match p.next_page_url with
      | none => some [p]
      | some _ => none
  | fuel + 1, p =>
      match p.next_page_url with
      | none => some [p]
      | some url =>
          match fetch url with
          | none => some [p]
          | some nxt => (collate_results fetch fuel nxt).map (p :: ·)

/-! ### Natural-key extraction (update_supabase_from_sport80.py:288-315)

An event record is a dict; the loop in `main` reads `['action'][0]['route']`
inside a `try` catching `KeyError`/`IndexError`/`TypeError`, and on failure
falls back to `.get("id")`.  `EventRecord.action = none` covers every caught
failure shape of the `action` path other than a missing `route` key
(key absent, value not indexable, empty list); `ActionEntry.route = none`
covers a first entry without a `route` key. -/

structure ActionEntry where
  route : Option String
deriving DecidableEq, Repr

structure EventRecord where
  dict : DataDict
  action : Option (List ActionEntry)
  id : Option String
deriving DecidableEq, Repr

/-- The `try` body: `str(event_data_item['action'][0]['route'].split('/')[-1]).strip()`.
`split('/')` always returns a non-empty list, so `[-1]` is its last element. -/
def routeSegment (e : EventRecord) : Option String :=
  match e.action with
  | some (entry :: _) =>
      match entry.route with
      | some r => some (pyStrip ((pySplit '/' r).getLastD ""))
      | none => none
  | _ => none

/-- Lines 291-298: `event_id_str` starts as the in-band sentinel `"N/A"`,
becomes the route segment if the `try` succeeds, else `str(id).strip()` when
`.get("id")` is truthy. -/
def extract_event_id (e : EventRecord) : String :=
  match routeSegment e with
  | some s => s
  | none =>
      match e.id with
      | some v => if v != "" then pyStrip v else "N/A"
      | none => "N/A"

/-- One entry of `candidate_event_details`. -/
structure Candidate where
  id : String
  name : Option String
  data : EventRecord
deriving DecidableEq, Repr

/-- Lines 288-309: build `candidate_event_details`, keeping a record iff its
`event_id_str` differs from `"N/A"`; `meet_name` is
`get_nested_value(event_data_item, "meet")` and may be falsy at this point. -/
def build_candidates (events : List EventRecord) : List Candidate :=
  events.filterMap fun e =>
    let eid := extract_event_id e
    if eid != "N/A" then some ⟨eid, get_nested_value e.dict "meet" none, e⟩
    else none

/-! ### Supabase queries (update_supabase_from_sport80.py:83-125, 220-243)

A query response is `none` for a failed request (`RequestException` or JSON
decode error), otherwise the decoded row list. -/

/-- `filter_already_existing_event_ids(candidate_event_ids)`: empty input or
a failed query yields the empty set (the error branches at lines 118-125
deliberately return `set()`); otherwise the set of truthy, trimmed
`event_id` values of the returned rows.  The set is represented by a list,
read only through membership. -/
def filter_already_existing_event_ids (candidateEventIds : List String)
    (resp : Option (List (Option String))) : List String :=
  if candidateEventIds.isEmpty then []
  else
    match resp with
    | none => []
    | some rows =>
        rows.filterMap fun row =>
          match row with
          | some v => if v != "" then some (pyStrip v) else none
          | none => none

/-- `fetch_max_id_from_supabase()`: first row's `id` of the
descending-ordered response, `0` on an empty response or any error. -/
def fetch_max_id_from_supabase (resp : Option (List Int)) : Int :=
  match resp with
  | none => 0
  | some [] => 0
  | some (x :: _) => x

/-! ### Row formatting and the main loop (update_supabase_from_sport80.py:272-400) -/

/-- One element of `formatted_results_for_supabase` (lines 374-385). -/
structure Row where
  id : Int
  event_id : String
  meet : String
  date : Option String
  name : Option String
  age : Option String
  body_weight : Option String
  snatch1 : Option String
  snatch2 : Option String
  snatch3 : Option String
  snatch_best : Option String
  cj1 : Option String
  cj2 : Option String
  cj3 : Option String
  cj_best : Option String
  total : Option String
deriving DecidableEq, Repr

/-- Lines 360-385, one iteration: the ordered-fallback field extraction and
the dict literal appended to `formatted_results_for_supabase`. -/
def formatRow (rowId : Int) (eventId meetName : String) (meetDate : Option String)
    (r : DataDict) : Row :=
  { id := rowId
    event_id := eventId
    meet := meetName
    date := meetDate
    name := pyOr (get_nested_value r "lifter" (some "Athlete"))
                 (get_nested_value r "name" (some "Name"))
    age := pyOr (get_nested_value r "age_category" (some "Age Category"))
                (get_nested_value r "age" (some "Age"))
    body_weight := pyOr (get_nested_value r "body_weight_kg" (some "Bodyweight"))
                        (get_nested_value r "body_weight_(kg)" none)
    snatch1 := get_nested_value r "snatch_lift_1" (some "Snatch 1")
    snatch2 := get_nested_value r "snatch_lift_2" (some "Snatch 2")
    snatch3 := get_nested_value r "snatch_lift_3" (some "Snatch 3")
    snatch_best := get_nested_value r "best_snatch" (some "Best Snatch")
    cj1 := pyOr (get_nested_value r "cj_lift_1" (some "Clean & Jerk 1"))
                (get_nested_value r "c&j_lift_1" none)
    cj2 := pyOr (get_nested_value r "cj_lift_2" (some "Clean & Jerk 2"))
                (get_nested_value r "c&j_lift_2" none)
    cj3 := pyOr (get_nested_value r "cj_lift_3" (some "Clean & Jerk 3"))
                (get_nested_value r "c&j_lift_3" none)
    cj_best := pyOr (get_nested_value r "best_cj" (some "Best Clean & Jerk"))
                    (get_nested_value r "best_c&j" none)
    total := get_nested_value r "total" (some "Total") }

/-- The `for result_item in detailed_results_list` loop: one row id allocated
per emitted row, `next_id_for_new_rows += 1` after each. -/
def formatRows : Int → String → String → Option String → List DataDict → List Row
  | _, _, _, _, [] => []
  | nextId, eid, meet, md, r :: rest =>
      formatRow nextId eid meet md r :: formatRows (nextId + 1) eid meet md rest

/-- Lines 357-358: `meet_date_for_db` is the formatted date when the parsed
date exceeds `datetime.min`, else SQL `NULL` (`None`). -/
def meet_date_for_db (e : DataDict) : Option String :=
  if pyDateLt datetime_min (parse_event_date e)
  then some (strftimeYMD (parse_event_date e)) else none

/-- `add_meet_results_to_supabase(results_to_insert)` (lines 128-153):
`None` for an empty batch or a failed POST (the `RequestException` is caught
and swallowed), `Some ()` standing for the successful response object.
`outcome` models whether the POST succeeds. -/
def add_meet_results_to_supabase (outcome : List Row → Bool) (rows : List Row) :
    Option Unit :=
  if rows.isEmpty then none
  else if outcome rows then some () else none

/-- The external collaborators of the per-candidate loop:
`fetch_meet_results_from_sport80` (already a total function returning `[]` on
any error, lines 191-217) and the success/failure of the batch-insert POST. -/
structure RunEnv where
  fetchDetail : EventRecord → List DataDict
  insertOutcome : List Row → Bool

/-- The loop state of `main`.  `fetched` (ids for which a detail fetch was
issued) and `inserted` (batches handed to `add_meet_results_to_supabase`)
record the observable side effects. -/
structure LoopState where
  processed_event_ids : List String
  new_events_added_count : Nat
  next_id_for_new_rows : Int
  fetched : List String
  inserted : List (List Row)
deriving DecidableEq, Repr

/-- One iteration of `for event_details in candidate_event_details`
(lines 328-395): skip on falsy meet name, on an id already in the DB
snapshot, or on an id already processed this run; otherwise fetch detail
rows, format them (allocating ids), call the batch insert — whose result the
code discards — and record the id as processed. -/
def processCandidate (env : RunEnv) (existing : List String)
    (st : LoopState) (c : Candidate) : LoopState :=
  if !truthy c.name then st
  else if existing.contains c.id then st
  else if st.processed_event_ids.contains c.id then st
  else
    let detailed := env.fetchDetail c.data
    let st1 := { st with fetched := st.fetched ++ [c.id] }
    if detailed.isEmpty then
      { st1 with processed_event_ids := st1.processed_event_ids ++ [c.id] }
    else
      let md := meet_date_for_db c.data.dict
      let rows := formatRows st1.next_id_for_new_rows c.id (c.name.getD "") md detailed
      let st2 := { st1 with next_id_for_new_rows := st1.next_id_for_new_rows + rows.length }
      let st3 :=
        if !rows.isEmpty then
          let _ := add_meet_results_to_supabase env.insertOutcome rows
          { st2 with inserted := st2.inserted ++ [rows],
                     new_events_added_count := st2.new_events_added_count + 1 }
        else st2
      { st3 with processed_event_ids := st3.processed_event_ids ++ [c.id] }

/-- The whole per-candidate loop, started with
`processed_event_ids_this_run = set()`, `new_events_added_count = 0` and
`next_id_for_new_rows = max_id_in_db + 1 = startId`. -/
def run_main_loop (env : RunEnv) (existing : List String)
    (cands : List Candidate) (startId : Int) : LoopState :=
  cands.foldl (processCandidate env existing) ⟨[], 0, startId, [], []⟩

/-- `main()` from candidate extraction onwards (lines 288-397): build the
candidates, snapshot the existing ids, look up the max id and run the loop.
(The early returns for empty event/candidate lists produce the same empty
loop state.) -/
def main_run (events : List EventRecord)
    (existingResp : Option (List (Option String)))
    (maxIdResp : Option (List Int)) (env : RunEnv) : LoopState :=
  let cands := build_candidates events
  let existing := filter_already_existing_event_ids (cands.map (·.id)) existingResp
  let maxId := fetch_max_id_from_supabase maxIdResp
  run_main_loop env existing cands (maxId + 1)

/-! ### Helper lemmas -/

/-- The id sequence `n, n+1, ..., n+len-1` issued by the row-formatting loop. -/
def idsFrom (n : Int) : Nat → List Int
  | 0 => []
  | len + 1 => n :: idsFrom (n + 1) len

theorem idsFrom_append (a b : Nat) : ∀ n : Int,
    idsFrom n (a + b) = idsFrom n a ++ idsFrom (n + a) b := by
  induction a with
  | zero => intro n; simp [idsFrom]
  | succ a ih =>
      intro n
      have : a + 1 + b = (a + b) + 1 := by omega
      rw [this]
      simp only [idsFrom, ih (n + 1), List.cons_append, List.nil_append]
      have : n + 1 + (a : Int) = n + ((a : Nat) + 1 : Nat) := by push_cast; ring
      rw [this]

theorem formatRows_length (eid meet : String) (md : Option String) :
    ∀ (l : List DataDict) (n : Int), (formatRows n eid meet md l).length = l.length := by
  intro l
  induction l with
  | nil => intro n; rfl
  | cons r rest ih => intro n; simp [formatRows, ih]

theorem formatRows_ids (eid meet : String) (md : Option String) :
    ∀ (l : List DataDict) (n : Int),
      (formatRows n eid meet md l).map Row.id = idsFrom n l.length := by
  intro l
  induction l with
  | nil => intro n; rfl
  | cons r rest ih => intro n; simp [formatRows, idsFrom, formatRow, ih]

theorem formatRows_event_id (eid meet : String) (md : Option String) :
    ∀ (l : List DataDict) (n : Int) (r : Row),
      r ∈ formatRows n eid meet md l → r.event_id = eid := by
  intro l
  induction l with
  | nil => intro n r h; cases h
  | cons x rest ih =>
      intro n r h
      rcases List.mem_cons.mp h with h | h
      · subst h; rfl
      · exact ih _ _ h

theorem formatRows_date (eid meet : String) (md : Option String) :
    ∀ (l : List DataDict) (n : Int) (r : Row),
      r ∈ formatRows n eid meet md l → r.date = md := by
  intro l
  induction l with
  | nil => intro n r h; cases h
  | cons x rest ih =>
      intro n r h
      rcases List.mem_cons.mp h with h | h
      · subst h; rfl
      · exact ih _ _ h

/-- Case analysis of one loop iteration: either the candidate is skipped and
the state is unchanged (falsy name, id in the DB snapshot, or id already
processed this run), or a detail fetch is issued and the state advances by
the formatted batch. -/
theorem processCandidate_cases (env : RunEnv) (existing : List String)
    (st : LoopState) (c : Candidate) :
    (processCandidate env existing st c = st
      ∧ (truthy c.name = false ∨ existing.contains c.id = true
          ∨ st.processed_event_ids.contains c.id = true))
    ∨ (truthy c.name = true ∧ existing.contains c.id = false
        ∧ st.processed_event_ids.contains c.id = false
        ∧ processCandidate env existing st c =
            { processed_event_ids := st.processed_event_ids ++ [c.id]
              new_events_added_count := st.new_events_added_count +
                (if (env.fetchDetail c.data).isEmpty then 0 else 1)
              next_id_for_new_rows := st.next_id_for_new_rows +
                (env.fetchDetail c.data).length
              fetched := st.fetched ++ [c.id]
              inserted := st.inserted ++
                (if (env.fetchDetail c.data).isEmpty then []
                 else [formatRows st.next_id_for_new_rows c.id (c.name.getD "")
                        (meet_date_for_db c.data.dict) (env.fetchDetail c.data)]) }) := by
  by_cases h1 : truthy c.name
  · by_cases h2 : c.id ∈ existing
    · left
      constructor
      · simp [processCandidate, h1, h2]
      · right; left; simpa using h2
    · by_cases h3 : c.id ∈ st.processed_event_ids
      · left
        constructor
        · simp [processCandidate, h1, h2, h3]
        · right; right; simpa using h3
      · right
        refine ⟨h1, by simpa using h2, by simpa using h3, ?_⟩
        by_cases h4 : env.fetchDetail c.data = []
        · simp [processCandidate, h1, h2, h3, h4, formatRows]
        · have hrne : formatRows st.next_id_for_new_rows c.id (c.name.getD "")
              (meet_date_for_db c.data.dict) (env.fetchDetail c.data) ≠ [] := by
            intro hr
            have := formatRows_length c.id (c.name.getD "") (meet_date_for_db c.data.dict)
              (env.fetchDetail c.data) st.next_id_for_new_rows
            rw [hr] at this
            exact h4 (List.eq_nil_of_length_eq_zero this.symm)
          simp [processCandidate, h1, h2, h3, h4, hrne, formatRows_length]
  · left
    constructor
    · simp [processCandidate, h1]
    · left; simpa using h1

/-- An invariant preserved by every iteration holds after the whole loop. -/
theorem loop_invariant {env : RunEnv} {existing : List String} {P : LoopState → Prop}
    (step : ∀ st c, P st → P (processCandidate env existing st c)) :
    ∀ (cands : List Candidate) (st : LoopState),
      P st → P (cands.foldl (processCandidate env existing) st) := by
  intro cands
  induction cands with
  | nil => intro st h; exact h
  | cons c cs ih => intro st h; exact ih _ (step _ _ h)

theorem fetched_mono (env : RunEnv) (existing : List String)
    (st : LoopState) (c : Candidate) :
    ∀ k ∈ st.fetched, k ∈ (processCandidate env existing st c).fetched := by
  intro k hk
  rcases processCandidate_cases env existing st c with ⟨heq, _⟩ | ⟨_, _, _, heq⟩ <;>
    simp [heq, hk]

theorem foldl_fetched_mono (env : RunEnv) (existing : List String) :
    ∀ (cands : List Candidate) (st : LoopState) (k : String),
      k ∈ st.fetched → k ∈ (cands.foldl (processCandidate env existing) st).fetched := by
  intro cands
  induction cands with
  | nil => intro st k h; exact h
  | cons c cs ih => intro st k h; exact ih _ _ (fetched_mono env existing st c k h)

theorem processed_sub_fetched (env : RunEnv) (existing : List String)
    (st : LoopState) (c : Candidate)
    (h : ∀ x ∈ st.processed_event_ids, x ∈ st.fetched) :
    ∀ x ∈ (processCandidate env existing st c).processed_event_ids,
      x ∈ (processCandidate env existing st c).fetched := by
  intro x hx
  rcases processCandidate_cases env existing st c with ⟨heq, _⟩ | ⟨_, _, _, heq⟩
  · rw [heq] at hx ⊢; exact h x hx
  · rw [heq] at hx ⊢
    simp only [List.mem_append, List.mem_singleton] at hx ⊢
    rcases hx with hx | hx
    · exact Or.inl (h x hx)
    · exact Or.inr hx

/-- A key present in the existing-key snapshot is never detail-fetched and
never appears as the `event_id` of an inserted row. -/
theorem run_existing_not_touched (env : RunEnv) (existing : List String)
    (cands : List Candidate) (startId : Int) (k : String)
    (hk : k ∈ existing) :
    k ∉ (run_main_loop env existing cands startId).fetched
    ∧ ∀ b ∈ (run_main_loop env existing cands startId).inserted,
        ∀ r ∈ b, r.event_id ≠ k := by
  have main : ∀ st : LoopState,
      (k ∉ st.fetched ∧ ∀ b ∈ st.inserted, ∀ r ∈ b, r.event_id ≠ k) →
      ∀ c, (k ∉ (processCandidate env existing st c).fetched
        ∧ ∀ b ∈ (processCandidate env existing st c).inserted,
            ∀ r ∈ b, r.event_id ≠ k) := by
    intro st ⟨hf, hi⟩ c
    rcases processCandidate_cases env existing st c with ⟨heq, _⟩ | ⟨_, hnot, _, heq⟩
    · rw [heq]; exact ⟨hf, hi⟩
    · have hne : c.id ≠ k := by
        intro h; rw [h] at hnot
        simp at hnot
        exact hnot hk
      rw [heq]
      constructor
      · simp only [List.mem_append, List.mem_singleton]
        rintro (h | h)
        · exact hf h
        · exact hne h.symm
      · intro b hb r hr
        simp only [List.mem_append] at hb
        rcases hb with hb | hb
        · exact hi b hb r hr
        · by_cases hb4 : (env.fetchDetail c.data).isEmpty
          · rw [if_pos hb4] at hb
            exact absurd hb (List.not_mem_nil b)
          · rw [if_neg hb4] at hb
            simp only [List.mem_singleton] at hb
            subst hb
            rw [formatRows_event_id _ _ _ _ _ _ hr]
            exact hne
  exact loop_invariant (fun st c h => main st h c) cands ⟨[], 0, startId, [], []⟩
    ⟨by simp, by simp⟩

/-- The inserted rows of a loop run carry the consecutive ids
`startId, startId + 1, ...` in order, one id per emitted row, and the id
counter always sits right past the last id handed to a batch. -/
theorem run_ids_consecutive (env : RunEnv) (existing : List String)
    (cands : List Candidate) (startId : Int) :
    (run_main_loop env existing cands startId).inserted.flatten.map Row.id
      = idsFrom startId (run_main_loop env existing cands startId).inserted.flatten.length
    ∧ (run_main_loop env existing cands startId).next_id_for_new_rows
      = startId + (run_main_loop env existing cands startId).inserted.flatten.length := by
  have step : ∀ (st : LoopState) (c : Candidate),
      (st.inserted.flatten.map Row.id = idsFrom startId st.inserted.flatten.length
        ∧ st.next_id_for_new_rows = startId + st.inserted.flatten.length) →
      ((processCandidate env existing st c).inserted.flatten.map Row.id
          = idsFrom startId (processCandidate env existing st c).inserted.flatten.length
        ∧ (processCandidate env existing st c).next_id_for_new_rows
          = startId + (processCandidate env existing st c).inserted.flatten.length) := by
    intro st c ⟨hmap, hnext⟩
    rcases processCandidate_cases env existing st c with ⟨heq, _⟩ | ⟨_, _, _, heq⟩
    · rw [heq]; exact ⟨hmap, hnext⟩
    · rw [heq]
      by_cases h4 : (env.fetchDetail c.data).isEmpty
      · have hnil : env.fetchDetail c.data = [] := by simpa [List.isEmpty_iff] using h4
        simp only [hnil, List.isEmpty_nil, if_true, List.append_nil, List.length_nil]
        refine ⟨hmap, ?_⟩
        simpa using hnext
      · simp only [if_neg h4, List.flatten_append]
        have hrows := formatRows_ids c.id (c.name.getD "") (meet_date_for_db c.data.dict)
          (env.fetchDetail c.data) st.next_id_for_new_rows
        have hlen := formatRows_length c.id (c.name.getD "") (meet_date_for_db c.data.dict)
          (env.fetchDetail c.data) st.next_id_for_new_rows
        have hfl : ([formatRows st.next_id_for_new_rows c.id (c.name.getD "")
              (meet_date_for_db c.data.dict) (env.fetchDetail c.data)] : List (List Row)).flatten
            = formatRows st.next_id_for_new_rows c.id (c.name.getD "")
              (meet_date_for_db c.data.dict) (env.fetchDetail c.data) := by simp
        rw [hfl]
        constructor
        · rw [List.map_append, hmap, hrows, List.length_append, hlen, hnext, idsFrom_append]
        · rw [List.length_append, hlen, hnext]
          push_cast
          ring
  have base : (⟨[], 0, startId, [], []⟩ : LoopState).inserted.flatten.map Row.id
      = idsFrom startId (⟨[], 0, startId, [], []⟩ : LoopState).inserted.flatten.length
    ∧ (⟨[], 0, startId, [], []⟩ : LoopState).next_id_for_new_rows
      = startId + (⟨[], 0, startId, [], []⟩ : LoopState).inserted.flatten.length := by
    constructor
    · rfl
    · simp
  exact loop_invariant step cands _ base

/-- Every inserted row's `date` is `NULL` or the formatted resolved date of
some record whose resolved date exceeds the sentinel. -/
theorem run_dates_shape (env : RunEnv) (existing : List String)
    (cands : List Candidate) (startId : Int) :
    ∀ b ∈ (run_main_loop env existing cands startId).inserted, ∀ r ∈ b,
      r.date = none ∨ ∃ e : DataDict, r.date = some (strftimeYMD (parse_event_date e))
        ∧ pyDateLt datetime_min (parse_event_date e) = true := by
  have step : ∀ (st : LoopState) (c : Candidate),
      (∀ b ∈ st.inserted, ∀ r ∈ b,
        r.date = none ∨ ∃ e : DataDict, r.date = some (strftimeYMD (parse_event_date e))
          ∧ pyDateLt datetime_min (parse_event_date e) = true) →
      ∀ b ∈ (processCandidate env existing st c).inserted, ∀ r ∈ b,
        r.date = none ∨ ∃ e : DataDict, r.date = some (strftimeYMD (parse_event_date e))
          ∧ pyDateLt datetime_min (parse_event_date e) = true := by
    intro st c hinv
    rcases processCandidate_cases env existing st c with ⟨heq, _⟩ | ⟨_, _, _, heq⟩
    · rw [heq]; exact hinv
    · rw [heq]
      intro b hb r hr
      simp only [List.mem_append] at hb
      rcases hb with hb | hb
      · exact hinv b hb r hr
      · by_cases h4 : (env.fetchDetail c.data).isEmpty
        · rw [if_pos h4] at hb
          exact absurd hb (List.not_mem_nil b)
        · rw [if_neg h4] at hb
          simp only [List.mem_singleton] at hb
          subst hb
          have hd := formatRows_date c.id (c.name.getD "") (meet_date_for_db c.data.dict)
            (env.fetchDetail c.data) st.next_id_for_new_rows r hr
          rw [hd]
          unfold meet_date_for_db
          by_cases h5 : pyDateLt datetime_min (parse_event_date c.data.dict) = true
          · right
            exact ⟨c.data.dict, by rw [if_pos h5], h5⟩
          · left
            rw [if_neg h5]
  exact loop_invariant step cands _ (by intro b hb; exact absurd hb (List.not_mem_nil b))

/-- One step of the loop run on a candidate and on the same candidate with
its display name replaced by any name of the same truthiness: the processed
set, fetched set, added count and id counter evolve identically (only the
`meet` column of inserted rows can differ). -/
theorem process_name_step (env : RunEnv) (existing : List String)
    (st₁ st₂ : LoopState) (c : Candidate) (nm : Option String)
    (hnm : truthy nm = truthy c.name)
    (h1 : st₁.processed_event_ids = st₂.processed_event_ids)
    (h2 : st₁.fetched = st₂.fetched)
    (h3 : st₁.new_events_added_count = st₂.new_events_added_count)
    (h4 : st₁.next_id_for_new_rows = st₂.next_id_for_new_rows) :
    (processCandidate env existing st₁ c).processed_event_ids
        = (processCandidate env existing st₂ ⟨c.id, nm, c.data⟩).processed_event_ids
    ∧ (processCandidate env existing st₁ c).fetched
        = (processCandidate env existing st₂ ⟨c.id, nm, c.data⟩).fetched
    ∧ (processCandidate env existing st₁ c).new_events_added_count
        = (processCandidate env existing st₂ ⟨c.id, nm, c.data⟩).new_events_added_count
    ∧ (processCandidate env existing st₁ c).next_id_for_new_rows
        = (processCandidate env existing st₂ ⟨c.id, nm, c.data⟩).next_id_for_new_rows := by
  rcases processCandidate_cases env existing st₁ c with ⟨heqa, hskipa⟩ | ⟨ha1, ha2, ha3, heqa⟩ <;>
    rcases processCandidate_cases env existing st₂ ⟨c.id, nm, c.data⟩ with
      ⟨heqb, hskipb⟩ | ⟨hb1, hb2, hb3, heqb⟩
  · rw [heqa, heqb]; exact ⟨h1, h2, h3, h4⟩
  · exfalso
    simp only at hb1 hb2 hb3
    rcases hskipa with h | h | h
    · rw [hnm, h] at hb1; cases hb1
    · rw [h] at hb2; cases hb2
    · rw [← h1] at hb3
      rw [h] at hb3; cases hb3
  · exfalso
    simp only at hskipb
    rcases hskipb with h | h | h
    · rw [hnm] at h; rw [h] at ha1; cases ha1
    · rw [h] at ha2; cases ha2
    · rw [h1] at ha3
      rw [h] at ha3; cases ha3
  · rw [heqa, heqb]
    simp only
    exact ⟨by rw [h1], by rw [h2], by rw [h3], by rw [h4]⟩

/-- The whole loop run is insensitive to display-name changes that preserve
truthiness, in everything except the `meet` column of the inserted rows. -/
theorem run_name_irrelevant (env : RunEnv) (existing : List String)
    (f : Candidate → Option String) (hf : ∀ c, truthy (f c) = truthy c.name) :
    ∀ (cands : List Candidate) (st₁ st₂ : LoopState),
      st₁.processed_event_ids = st₂.processed_event_ids →
      st₁.fetched = st₂.fetched →
      st₁.new_events_added_count = st₂.new_events_added_count →
      st₁.next_id_for_new_rows = st₂.next_id_for_new_rows →
      (cands.foldl (processCandidate env existing) st₁).fetched
        = ((cands.map fun c => ⟨c.id, f c, c.data⟩).foldl
            (processCandidate env existing) st₂).fetched
      ∧ (cands.foldl (processCandidate env existing) st₁).new_events_added_count
        = ((cands.map fun c => ⟨c.id, f c, c.data⟩).foldl
            (processCandidate env existing) st₂).new_events_added_count := by
  intro cands
  induction cands with
  | nil => intro st₁ st₂ e1 e2 e3 e4; exact ⟨e2, e3⟩
  | cons c cs ih =>
      intro st₁ st₂ e1 e2 e3 e4
      have step := process_name_step env existing st₁ st₂ c (f c) (hf c) e1 e2 e3 e4
      simpa using ih (processCandidate env existing st₁ c)
        (processCandidate env existing st₂ ⟨c.id, f c, c.data⟩)
        step.1 step.2.1 step.2.2.1 step.2.2.2

/-! ### Pagination chain lemmas -/

/-- Page `i` of a synthetic chain whose last page is `k`: it carries a
cursor to page `i + 1` unless `i = k`. -/
def pageAt (k : Nat) (itemsOf : Nat → List String) (i : Nat) : Page :=
  ⟨if i < k then some (i + 1) else none, itemsOf i⟩

/-- The remote endpoint serving that chain. -/
def chainFetch (k : Nat) (itemsOf : Nat → List String) : Nat → Option Page :=
  fun j => if j ≤ k then some (pageAt k itemsOf j) else none

/-- The same endpoint with the fetch of page `j` failing. -/
def failChainFetch (k j : Nat) (itemsOf : Nat → List String) : Nat → Option Page :=
  fun u => if u = j then none else chainFetch k itemsOf u

theorem collate_chain_aux (k : Nat) (itemsOf : Nat → List String) :
    ∀ (fuel i : Nat), i ≤ k → k - i ≤ fuel →
      collate_results (chainFetch k itemsOf) fuel (pageAt k itemsOf i)
        = some ((List.range' i (k + 1 - i)).map (pageAt k itemsOf)) := by
  intro fuel
  induction fuel with
  | zero =>
      intro i hik hfuel
      have hcur : (pageAt k itemsOf i).next_page_url = none := by
        simp only [pageAt]
        rw [if_neg (by omega)]
      have hone : k + 1 - i = 1 := by omega
      rw [hone]
      simp only [collate_results, hcur, List.range'_one, List.map_cons, List.map_nil]
  | succ fuel ih =>
      intro i hik hfuel
      by_cases hi : i < k
      · have hcur : (pageAt k itemsOf i).next_page_url = some (i + 1) := by
          simp [pageAt, hi]
        have hfetch : chainFetch k itemsOf (i + 1) = some (pageAt k itemsOf (i + 1)) := by
          simp [chainFetch]; omega
        have hrec := ih (i + 1) (by omega) (by omega)
        simp only [collate_results, hcur, hfetch, hrec, Option.map_some]
        have hsplit : k + 1 - i = (k - i) + 1 := by omega
        rw [hsplit, List.range'_succ, List.map_cons]
        have : k + 1 - (i + 1) = k - i := by omega
        rw [this]
        rfl
      · have hcur : (pageAt k itemsOf i).next_page_url = none := by
          simp only [pageAt]
          rw [if_neg hi]
        have hone : k + 1 - i = 1 := by omega
        rw [hone]
        simp only [collate_results, hcur, List.range'_one, List.map_cons, List.map_nil]

theorem collate_fail_aux (k j : Nat) (itemsOf : Nat → List String) (hjk : j ≤ k) :
    ∀ (fuel i : Nat), i < j → j - i ≤ fuel →
      collate_results (failChainFetch k j itemsOf) fuel (pageAt k itemsOf i)
        = some ((List.range' i (j - i)).map (pageAt k itemsOf)) := by
  intro fuel
  induction fuel with
  | zero => intro i hij hfuel; omega
  | succ fuel ih =>
      intro i hij hfuel
      have hcur : (pageAt k itemsOf i).next_page_url = some (i + 1) := by
        simp [pageAt]; omega
      by_cases hstep : i + 1 = j
      · have hfetch : failChainFetch k j itemsOf (i + 1) = none := by
          simp [failChainFetch, hstep]
        simp only [collate_results, hcur, hfetch]
        have : j - i = 1 := by omega
        rw [this, List.range'_one, List.map_cons, List.map_nil]
      · have hfetch : failChainFetch k j itemsOf (i + 1)
            = some (pageAt k itemsOf (i + 1)) := by
          simp only [failChainFetch, chainFetch]
          rw [if_neg hstep, if_pos (by omega)]
        have hrec := ih (i + 1) (by omega) (by omega)
        simp only [collate_results, hcur, hfetch, hrec, Option.map_some]
        have hsplit : j - i = (j - (i + 1)) + 1 := by omega
        rw [hsplit, List.range'_succ]
        simp

/-! ### Range of parsed dates -/

theorem mkValidDate_pos (y m d : Nat) (p : PyDate) (h : mkValidDate y m d = some p) :
    1 ≤ p.year ∧ 1 ≤ p.month ∧ 1 ≤ p.day := by
  unfold mkValidDate at h
  split at h
  · next hc =>
      cases h
      simp only [Bool.and_eq_true, decide_eq_true_eq] at hc
      exact ⟨hc.1.1.1.1.1, hc.1.1.1.2, hc.1.2⟩
  · cases h

theorem strpDateYMD_pos (s : String) (p : PyDate) (h : strpDateYMD s = some p) :
    1 ≤ p.year ∧ 1 ≤ p.month ∧ 1 ≤ p.day := by
  unfold strpDateYMD at h
  split at h
  · split at h
    · exact mkValidDate_pos _ _ _ p h
    · cases h
  · cases h

theorem strpDateDMY_pos (s : String) (p : PyDate) (h : strpDateDMY s = some p) :
    1 ≤ p.year ∧ 1 ≤ p.month ∧ 1 ≤ p.day := by
  unfold strpDateDMY at h
  split at h
  · split at h
    · exact mkValidDate_pos _ _ _ p h
    · cases h
  · cases h

theorem strpDateMDY_pos (s : String) (p : PyDate) (h : strpDateMDY s = some p) :
    1 ≤ p.year ∧ 1 ≤ p.month ∧ 1 ≤ p.day := by
  unfold strpDateMDY at h
  split at h
  · split at h
    · exact mkValidDate_pos _ _ _ p h
    · cases h
  · cases h

theorem strpWithTime_pos (dp : String → Option PyDate)
    (hdp : ∀ s p, dp s = some p → 1 ≤ p.year ∧ 1 ≤ p.month ∧ 1 ≤ p.day)
    (s : String) (p : PyDate) (h : strpWithTime dp s = some p) :
    1 ≤ p.year ∧ 1 ≤ p.month ∧ 1 ≤ p.day := by
  unfold strpWithTime at h
  split at h
  · split at h
    · exact hdp _ p h
    · cases h
  · cases h

theorem strptime_pos (fmt s : String) (p : PyDate) (h : strptime fmt s = some p) :
    1 ≤ p.year ∧ 1 ≤ p.month ∧ 1 ≤ p.day := by
  unfold strptime at h
  split_ifs at h
  · exact strpWithTime_pos strpDateYMD strpDateYMD_pos s p h
  · exact strpDateYMD_pos s p h
  · exact strpWithTime_pos strpDateDMY strpDateDMY_pos s p h
  · exact strpDateDMY_pos s p h
  · exact strpWithTime_pos strpDateMDY strpDateMDY_pos s p h
  · exact strpDateMDY_pos s p h

theorem tryFormats_pos (fmts : List String) (s : String) (p : PyDate)
    (h : tryFormats fmts s = some p) :
    1 ≤ p.year ∧ 1 ≤ p.month ∧ 1 ≤ p.day := by
  induction fmts with
  | nil => cases h
  | cons fmt rest ih =>
      unfold tryFormats at h
      split at h
      · next heq => cases h; exact strptime_pos fmt s p heq
      · exact ih h

/-- Every resolved date has its three fields at least 1 (either it is the
sentinel `datetime.min` itself, or it came from a valid `strptime` parse). -/
theorem parse_event_date_pos (e : DataDict) :
    1 ≤ (parse_event_date e).year ∧ 1 ≤ (parse_event_date e).month
      ∧ 1 ≤ (parse_event_date e).day := by
  unfold parse_event_date
  split
  · exact ⟨le_refl 1, le_refl 1, le_refl 1⟩
  · split
    · exact ⟨le_refl 1, le_refl 1, le_refl 1⟩
    · split
      · next d heq => exact tryFormats_pos _ _ d heq
      · exact ⟨le_refl 1, le_refl 1, le_refl 1⟩

/-- No date with all fields at least 1 compares strictly below the sentinel. -/
theorem pyDateLt_min_false (p : PyDate)
    (h : 1 ≤ p.year ∧ 1 ≤ p.month ∧ 1 ≤ p.day) :
    pyDateLt p datetime_min = false := by
  obtain ⟨h1, h2, h3⟩ := h
  simp only [pyDateLt, datetime_min, Bool.or_eq_false_iff, Bool.and_eq_false_iff,
    decide_eq_false_iff_not, not_lt, beq_eq_false_iff_ne, ne_eq]
  omega

/-- For a date with all fields at least 1, not being strictly above the
sentinel means being the sentinel. -/
theorem pyDateLt_min_eq_iff (p : PyDate)
    (h : 1 ≤ p.year ∧ 1 ≤ p.month ∧ 1 ≤ p.day) :
    pyDateLt datetime_min p = false ↔ p = datetime_min := by
  obtain ⟨h1, h2, h3⟩ := h
  obtain ⟨y, m, d⟩ := p
  simp only [pyDateLt, datetime_min, Bool.or_eq_false_iff, Bool.and_eq_false_iff,
    decide_eq_false_iff_not, not_lt, beq_eq_false_iff_ne, ne_eq, PyDate.mk.injEq]
  constructor
  · intro hc
    simp only at h1 h2 h3 ⊢
    omega
  · intro hc
    simp only at h1 h2 h3 ⊢
    omega

/-- A candidate with a truthy display name whose key is not in the snapshot
is always detail-fetched. -/
theorem run_fetches_new_key (env : RunEnv) (existing : List String) :
    ∀ (cands : List Candidate) (st : LoopState) (c : Candidate),
      c ∈ cands → truthy c.name = true → c.id ∉ existing →
      (∀ x ∈ st.processed_event_ids, x ∈ st.fetched) →
      c.id ∈ (cands.foldl (processCandidate env existing) st).fetched := by
  intro cands
  induction cands with
  | nil => intro st c h; cases h
  | cons a cs ih =>
      intro st c hc hname hnotex hinv
      rcases List.mem_cons.mp hc with hc | hc
      · subst hc
        have : c.id ∈ (processCandidate env existing st c).fetched := by
          rcases processCandidate_cases env existing st c with ⟨heq, hskip⟩ | ⟨_, _, _, heq⟩
          · rcases hskip with h | h | h
            · rw [hname] at h; cases h
            · exfalso; exact hnotex (by simpa using h)
            · rw [heq]
              exact hinv c.id (by simpa using h)
          · rw [heq]; simp
        exact foldl_fetched_mono env existing cs _ _ this
      · exact ih _ c hc hname hnotex (processed_sub_fetched env existing st a hinv)

/-! ### Concrete fixtures for the claim instances -/

/-- A detail row as returned for one lifter. -/
def sampleDetail : DataDict := ⟨none, [("lifter", some "L")]⟩

/-- An event record whose natural key comes from the `id` fallback. -/
def evRec (eid : String) : EventRecord := ⟨⟨none, []⟩, none, some eid⟩

def env1 : RunEnv := ⟨fun _ => [sampleDetail], fun _ => true⟩

def cands1 : List Candidate :=
  [⟨"101", some "Meet A", evRec "101"⟩, ⟨"102", some "Meet B", evRec "102"⟩]

/-! ### Claim theorems -/

/-- C1: classification against the existing-key set partitions each run's
candidates by natural key: a key in the snapshot is never detail-fetched and
never appears among inserted rows, a truthy-named candidate with a key not
in the snapshot is always detail-fetched; concretely, with existing keys
`{"100","101"}` and candidates `{"101","102"}`, only `"102"` is fetched and
inserted, and the run adds exactly one new event. -/
theorem dedup_by_natural_key :
    (∀ (env : RunEnv) (existing : List String) (cands : List Candidate)
        (startId : Int) (k : String), k ∈ existing →
      k ∉ (run_main_loop env existing cands startId).fetched
      ∧ ∀ b ∈ (run_main_loop env existing cands startId).inserted,
          ∀ r ∈ b, r.event_id ≠ k)
    ∧ (∀ (env : RunEnv) (existing : List String) (cands : List Candidate)
        (startId : Int) (c : Candidate), c ∈ cands → truthy c.name = true →
      c.id ∉ existing → c.id ∈ (run_main_loop env existing cands startId).fetched)
    ∧ ((run_main_loop env1 ["100", "101"] cands1 1).fetched = ["102"]
        ∧ (run_main_loop env1 ["100", "101"] cands1 1).inserted.map
            (fun b => b.map Row.event_id) = [["102"]]
        ∧ (run_main_loop env1 ["100", "101"] cands1 1).new_events_added_count = 1) := by
  refine ⟨?_, ?_, by decide⟩
  · intro env existing cands startId k hk
    exact run_existing_not_touched env existing cands startId k hk
  · intro env existing cands startId c hc hname hnot
    exact run_fetches_new_key env existing cands _ c hc hname hnot (by simp)

/-- C1 witness: the duplicate key `"101"` of the concrete run is never
detail-fetched. -/
theorem dedup_by_natural_key_witness :
    "101" ∉ (run_main_loop env1 ["100", "101"] cands1 1).fetched :=
  (dedup_by_natural_key.1 env1 ["100", "101"] cands1 1 "101" (by decide)).1

/-- C2: traversal of a chain whose page `k` carries no cursor returns
exactly pages `0..k` in ascending index order, for every chain length; if
instead the fetch of page `j` fails, exactly pages `0..j-1` are returned,
as a normal (non-error) result and with exactly one fetch attempt per page. -/
theorem pagination_traversal :
    (∀ (k : Nat) (itemsOf : Nat → List String) (fuel : Nat), k ≤ fuel →
        collate_results (chainFetch k itemsOf) fuel (pageAt k itemsOf 0)
          = some ((List.range (k + 1)).map (pageAt k itemsOf)))
    ∧ (∀ (k j : Nat) (itemsOf : Nat → List String) (fuel : Nat),
        1 ≤ j → j ≤ k → j ≤ fuel →
        collate_results (failChainFetch k j itemsOf) fuel (pageAt k itemsOf 0)
          = some ((List.range j).map (pageAt k itemsOf))) := by
  constructor
  · intro k itemsOf fuel hfuel
    have := collate_chain_aux k itemsOf fuel 0 (Nat.zero_le k) (by omega)
    simpa [List.range_eq_range'] using this
  · intro k j itemsOf fuel hj hjk hfuel
    have := collate_fail_aux k j itemsOf hjk fuel 0 (by omega) (by omega)
    simpa [List.range_eq_range'] using this

/-- C2 witness: a concrete 3-page chain is returned whole, and with the
fetch of page 1 failing only page 0 is returned. -/
theorem pagination_traversal_witness :
    collate_results (chainFetch 2 (fun _ => [])) 5 (pageAt 2 (fun _ => []) 0)
      = some ((List.range 3).map (pageAt 2 (fun _ => [])))
    ∧ collate_results (failChainFetch 2 1 (fun _ => [])) 5 (pageAt 2 (fun _ => []) 0)
      = some ((List.range 1).map (pageAt 2 (fun _ => []))) :=
  ⟨pagination_traversal.1 2 (fun _ => []) 5 (by norm_num),
   pagination_traversal.2 2 1 (fun _ => []) 5 (by norm_num) (by norm_num) (by norm_num)⟩

/-- Display names already present in the destination store (no code under
verification reads these; they only witness the name collision below). -/
def existingNames : List String := ["usa nationals"]

def evC3 : EventRecord :=
  ⟨⟨none, [("meet", some " USA Nationals ")]⟩, some [⟨some "events/102"⟩], none⟩

def env3 : RunEnv := ⟨fun _ => [sampleDetail], fun _ => true⟩

/-- C3 counterexample: a candidate whose lower-cased, trimmed display name
equals a name already in the destination store, but whose natural key
`"102"` matches no existing key, is NOT classified as duplicate: the code
consults only `event_id`s, so the candidate is detail-fetched and its batch
inserted (the existing-key query here succeeded and returned no match). -/
theorem name_dedup_counterexample :
    pyLower (pyStrip " USA Nationals ") ∈ existingNames
    ∧ (main_run [evC3] (some []) (some []) env3).fetched = ["102"]
    ∧ (main_run [evC3] (some []) (some []) env3).new_events_added_count = 1
    ∧ (main_run [evC3] (some []) (some []) env3).inserted.map
        (fun b => b.map Row.event_id) = [["102"]] := by
  decide

/-- C3 amended: deduplication never consults display names.  A candidate
with a truthy name and a key not in the snapshot is always detail-fetched
(whatever its name), and replacing candidate names by any names of the same
truthiness leaves the set of fetched ids and the added count unchanged. -/
theorem dedup_ignores_display_name :
    (∀ (env : RunEnv) (existing : List String) (cands : List Candidate)
        (startId : Int) (c : Candidate), c ∈ cands → truthy c.name = true →
      c.id ∉ existing → c.id ∈ (run_main_loop env existing cands startId).fetched)
    ∧ (∀ (env : RunEnv) (existing : List String) (cands : List Candidate)
        (startId : Int) (f : Candidate → Option String),
        (∀ c, truthy (f c) = truthy c.name) →
      (run_main_loop env existing cands startId).fetched
        = (run_main_loop env existing
            (cands.map fun c => ⟨c.id, f c, c.data⟩) startId).fetched
      ∧ (run_main_loop env existing cands startId).new_events_added_count
        = (run_main_loop env existing
            (cands.map fun c => ⟨c.id, f c, c.data⟩) startId).new_events_added_count) := by
  constructor
  · intro env existing cands startId c hc hname hnot
    exact run_fetches_new_key env existing cands _ c hc hname hnot (by simp)
  · intro env existing cands startId f hf
    exact run_name_irrelevant env existing f hf cands _ _ rfl rfl rfl rfl

/-- C3 amended witness: the concrete candidate named `" USA Nationals "`
with fresh key `"102"` is detail-fetched. -/
theorem dedup_ignores_display_name_witness :
    "102" ∈ (run_main_loop env3 [] [⟨"102", some " USA Nationals ", evC3⟩] 1).fetched :=
  dedup_ignores_display_name.1 env3 [] [⟨"102", some " USA Nationals ", evC3⟩] 1
    ⟨"102", some " USA Nationals ", evC3⟩ (by decide) (by decide) (by decide)

/-- A record whose `action` path is unreadable and whose `id` is the literal
string `"N/A"`. -/
def evNA : EventRecord := ⟨⟨none, [("meet", some "Some Meet")]⟩, none, some "N/A"⟩

/-- C4 counterexample: this record has `record.id` present (`"N/A"`), so per
the claim its key is `"N/A"` and extraction succeeds; but the code uses
`"N/A"` as its in-band failure sentinel, so the record is dropped from the
candidates as if extraction had failed. -/
theorem extract_key_counterexample :
    evNA.id = some "N/A"
    ∧ evNA.id ≠ none
    ∧ extract_event_id evNA = "N/A"
    ∧ build_candidates [evNA] = [] := by
  decide

/-- C4 amended: the key is the trimmed segment after the last `/` of
`record.action[0].route` when that path is readable, else the trimmed
stringified `record.id` when truthy; extraction fails when the route path is
unreadable and the id is absent or empty, and additionally whenever the
derived key is the literal sentinel string `"N/A"` (which the code cannot
distinguish from failure); a record whose extraction fails is skipped while
the rest of the batch is still processed. -/
theorem extract_event_id_spec :
    (∀ (e : EventRecord) (entry : ActionEntry) (rest : List ActionEntry) (r : String),
        e.action = some (entry :: rest) → entry.route = some r →
        extract_event_id e = pyStrip ((pySplit '/' r).getLastD ""))
    ∧ (∀ (e : EventRecord) (v : String), routeSegment e = none → e.id = some v →
        v ≠ "" → extract_event_id e = pyStrip v)
    ∧ (∀ e : EventRecord, extract_event_id e = "N/A" ↔
        (routeSegment e = some "N/A"
          ∨ (routeSegment e = none ∧ (e.id = none ∨ e.id = some ""))
          ∨ (routeSegment e = none ∧ ∃ v, e.id = some v ∧ v ≠ "" ∧ pyStrip v = "N/A")))
    ∧ (∀ (es1 es2 : List EventRecord) (bad : EventRecord),
        extract_event_id bad = "N/A" →
        build_candidates (es1 ++ bad :: es2) = build_candidates es1 ++ build_candidates es2) := by
  refine ⟨?_, ?_, ?_, ?_⟩
  · intro e entry rest r ha hr
    simp [extract_event_id, routeSegment, ha, hr]
  · intro e v hseg hid hv
    simp [extract_event_id, hseg, hid, hv]
  · intro e
    cases hseg : routeSegment e with
    | some seg =>
        simp only [extract_event_id, hseg]
        constructor
        · intro h; subst h; exact Or.inl rfl
        · rintro (h | ⟨h, _⟩ | ⟨h, _⟩)
          · injection h
          · cases h
          · cases h
    | none =>
        cases hid : e.id with
        | none => simp [extract_event_id, hseg, hid]
        | some v =>
            by_cases hv : v = ""
            · subst hv; simp [extract_event_id, hseg, hid]
            · have hvb : (v != "") = true := by simpa using hv
              have hred : extract_event_id e = pyStrip v := by
                simp only [extract_event_id, hseg, hid, hvb, if_true]
              rw [hred]
              constructor
              · intro h
                exact Or.inr (Or.inr ⟨rfl, v, rfl, hv, h⟩)
              · rintro (h | ⟨h2, h | h⟩ | ⟨h2, w, hw, hwne, hwt⟩)
                · exact Option.noConfusion h
                · exact Option.noConfusion h
                · injection h with h
                  exact absurd h hv
                · injection hw with hw
                  rw [← hw] at hwt
                  exact hwt
  · intro es1 es2 bad hbad
    unfold build_candidates
    rw [List.filterMap_append]
    congr 1
    rw [List.filterMap_cons]
    simp [hbad]

/-- C4 amended witness: a concrete record with route `"a/101"` extracts key
`"101"`. -/
theorem extract_event_id_spec_witness :
    extract_event_id ⟨⟨none, []⟩, some [⟨some "a/101"⟩], none⟩
      = pyStrip ((pySplit '/' "a/101").getLastD "") :=
  extract_event_id_spec.1 ⟨⟨none, []⟩, some [⟨some "a/101"⟩], none⟩
    ⟨some "a/101"⟩ [] "a/101" rfl rfl

/-- A record carrying both shapes: a `columns` table entry and a flat key. -/
def dictBoth : DataDict := ⟨some [("Athlete", some "colA")], [("lifter", some "flatB")]⟩

/-- C5 counterexample: when a record carries both shapes, the table-derived
synonym under `columns` wins, not the dedicated flat key: the lookup of
logical field lifter (flat key `"lifter"`, column label `"Athlete"`) returns
the column value, contradicting the claimed flat-key-first priority. -/
theorem field_lookup_counterexample :
    get_nested_value dictBoth "lifter" (some "Athlete") = some "colA"
    ∧ (dictBoth.flat.lookup "lifter").join = some "flatB"
    ∧ get_nested_value dictBoth "lifter" (some "Athlete") ≠ some "flatB" := by
  decide

/-- C5 amended: the priority order is the reverse of the claim: when a
column label is given and the record has a `columns` mapping, the
table-derived synonym is consulted exclusively — its value wins when both
shapes are present, and a miss there yields no value without falling back to
the flat key; the dedicated flat key is consulted only when `columns` is
absent or no column label is supplied. -/
theorem field_lookup_priority :
    (∀ (d : DataDict) (pk cn : String) (cols : List (String × Option String)) (v : String),
        cn ≠ "" → d.columns = some cols → cols.lookup cn = some (some v) →
        get_nested_value d pk (some cn) = some v)
    ∧ (∀ (d : DataDict) (pk cn : String) (cols : List (String × Option String)),
        cn ≠ "" → d.columns = some cols → cols.lookup cn = none →
        get_nested_value d pk (some cn) = none)
    ∧ (∀ (d : DataDict) (pk cn : String), d.columns = none →
        get_nested_value d pk (some cn) = (d.flat.lookup pk).join)
    ∧ (∀ (d : DataDict) (pk : String),
        get_nested_value d pk none = (d.flat.lookup pk).join) := by
  refine ⟨?_, ?_, ?_, ?_⟩
  · intro d pk cn cols v hcn hcols hv
    unfold get_nested_value
    rw [hcols]
    simp [hv, hcn]
  · intro d pk cn cols hcn hcols hv
    unfold get_nested_value
    rw [hcols]
    simp [hv, hcn]
  · intro d pk cn hcols
    unfold get_nested_value
    rw [hcols]
  · intro d pk
    unfold get_nested_value
    rfl

/-- C5 amended witness: on the two-shape record the column value is
returned. -/
theorem field_lookup_priority_witness :
    get_nested_value dictBoth "lifter" (some "Athlete") = some "colA" :=
  field_lookup_priority.1 dictBoth "lifter" "Athlete"
    [("Athlete", some "colA")] "colA" (by decide) rfl (by decide)

/-- C6: date resolution is total with the fixed ordered format list applied
to the date-only part: `"2024-03-05"` resolves to 2024-03-05 (also with a
time-of-day suffix, which is discarded), `"05/03/2024"` resolves day-first
to 5 March 2024, an unparseable string or an absent field resolves to the
sentinel `datetime.min`, and no resolved date ever compares below the
sentinel — so the sentinel sorts last in descending-date order. -/
theorem date_resolution :
    possible_formats = ["%Y-%m-%d %H:%M:%S", "%Y-%m-%d", "%d/%m/%Y %H:%M:%S",
      "%d/%m/%Y", "%m/%d/%Y %H:%M:%S", "%m/%d/%Y"]
    ∧ parse_event_date ⟨none, [("date", some "2024-03-05")]⟩ = ⟨2024, 3, 5⟩
    ∧ parse_event_date ⟨none, [("date", some "2024-03-05 10:30:00")]⟩ = ⟨2024, 3, 5⟩
    ∧ parse_event_date ⟨none, [("date", some "05/03/2024")]⟩ = ⟨2024, 3, 5⟩
    ∧ parse_event_date ⟨none, [("date", some "n/a")]⟩ = datetime_min
    ∧ parse_event_date ⟨none, []⟩ = datetime_min
    ∧ (∀ e : DataDict, pyDateLt (parse_event_date e) datetime_min = false) := by
  refine ⟨rfl, by decide, by decide, by decide, by decide, by decide, ?_⟩
  intro e
  exact pyDateLt_min_false _ (parse_event_date_pos e)

/-- An event with three detail rows, used for the id-allocation instances. -/
def ev57 : EventRecord := ⟨⟨none, [("meet", some "Meet57")]⟩, some [⟨some "x/500"⟩], none⟩

def env7 : RunEnv := ⟨fun _ => [sampleDetail, sampleDetail, sampleDetail], fun _ => true⟩

/-- C7: ids of inserted rows form the consecutive strictly increasing
sequence `M+1, M+2, ...` when the run is seeded with max id `M`, allocated
lazily one per emitted row (`formatRows` hands out exactly one id per input
row and the counter ends right past the last issued id, so no block is ever
pre-reserved); seeding with 57 and emitting 3 rows yields ids 58, 59, 60,
seeding with 0 yields 1, 2, 3. -/
theorem id_allocation :
    (∀ (env : RunEnv) (existing : List String) (cands : List Candidate) (M : Int),
        (run_main_loop env existing cands (M + 1)).inserted.flatten.map Row.id
          = idsFrom (M + 1)
              (run_main_loop env existing cands (M + 1)).inserted.flatten.length
        ∧ (run_main_loop env existing cands (M + 1)).next_id_for_new_rows
          = (M + 1) + (run_main_loop env existing cands (M + 1)).inserted.flatten.length)
    ∧ (∀ (n : Int) (eid meet : String) (md : Option String) (l : List DataDict),
        (formatRows n eid meet md l).map Row.id = idsFrom n l.length
        ∧ (formatRows n eid meet md l).length = l.length)
    ∧ (main_run [ev57] (some []) (some [57]) env7).inserted.flatten.map Row.id
        = [58, 59, 60]
    ∧ (main_run [ev57] (some []) (some []) env7).inserted.flatten.map Row.id
        = [1, 2, 3] := by
  refine ⟨?_, ?_, by decide, by decide⟩
  · intro env existing cands M
    exact run_ids_consecutive env existing cands (M + 1)
  · intro n eid meet md l
    exact ⟨formatRows_ids eid meet md l n, formatRows_length eid meet md l n⟩

def env8 : RunEnv := ⟨fun _ => [sampleDetail], fun _ => false⟩

def cands8 : List Candidate := [⟨"7", some "M", evRec "7"⟩, ⟨"8", some "N", evRec "8"⟩]

/-- C8 counterexample: in a run where every batch-insert POST fails (both
attempted batches return `None`), both candidates are nevertheless counted
as newly added — the claim requires a failed candidate not to contribute to
the count, but the code ignores the insert result; the run does continue
through both candidates. -/
theorem insert_failure_counterexample :
    (run_main_loop env8 [] cands8 1).new_events_added_count = 2
    ∧ (run_main_loop env8 [] cands8 1).fetched = ["7", "8"]
    ∧ (run_main_loop env8 [] cands8 1).inserted.map
        (add_meet_results_to_supabase env8.insertOutcome) = [none, none] := by
  decide

/-- C8 amended: a failed batch insert leaves the run state completely
unchanged relative to a successful one — the loop never reads the insert
outcome, so the candidate is still counted as added and still marked
processed; and the loop always continues to the next candidate, whatever
happened to the previous ones. -/
theorem insert_outcome_ignored :
    (∀ (fd : EventRecord → List DataDict) (ok1 ok2 : List Row → Bool)
        (existing : List String) (cands : List Candidate) (startId : Int),
        run_main_loop ⟨fd, ok1⟩ existing cands startId
          = run_main_loop ⟨fd, ok2⟩ existing cands startId)
    ∧ (∀ (env : RunEnv) (existing : List String) (cands : List Candidate)
        (c : Candidate) (startId : Int),
        run_main_loop env existing (cands ++ [c]) startId
          = processCandidate env existing (run_main_loop env existing cands startId) c) := by
  constructor
  · intro fd ok1 ok2 existing cands startId
    rfl
  · intro env existing cands c startId
    unfold run_main_loop
    rw [List.foldl_append]
    rfl

def ev9 : EventRecord := ⟨⟨none, [("meet", some "M9")]⟩, some [⟨some "x/101"⟩], none⟩

def env9 : RunEnv := ⟨fun _ => [sampleDetail], fun _ => true⟩

/-- C9 counterexample: with the existing-key snapshot query failing
(`none`) and the max-id lookup failing (`none`), the claim requires the run
to fail before any write; instead the code swallows both errors and
proceeds: candidate `"101"` is detail-fetched, a batch is inserted and the
run reports one added event — without any deduplication baseline. -/
theorem baseline_failure_counterexample :
    (main_run [ev9] none none env9).fetched = ["101"]
    ∧ (main_run [ev9] none none env9).new_events_added_count = 1
    ∧ (main_run [ev9] none none env9).inserted ≠ [] := by
  decide

/-- C9 amended: a failed snapshot query yields the empty existing-key set
and a failed max-id lookup yields 0, and the run then proceeds exactly as a
run over an empty destination store (seeded with id 1) — baseline failures
are swallowed, not fatal, so writes can occur with no dedup baseline. -/
theorem baseline_failure_proceeds :
    (∀ ids : List String, filter_already_existing_event_ids ids none = [])
    ∧ fetch_max_id_from_supabase none = 0
    ∧ (∀ (events : List EventRecord) (env : RunEnv),
        main_run events none none env
          = run_main_loop env [] (build_candidates events) 1) := by
  refine ⟨?_, rfl, ?_⟩
  · intro ids
    unfold filter_already_existing_event_ids
    split <;> rfl
  · intro events env
    have h1 : filter_already_existing_event_ids
        ((build_candidates events).map (·.id)) none = [] := by
      unfold filter_already_existing_event_ids
      split <;> rfl
    simp only [main_run, h1]
    norm_num [fetch_max_id_from_supabase]

def ev10 : EventRecord :=
  ⟨⟨none, [("meet", some "Old"), ("date", some "0001-01-01")]⟩, some [⟨some "x/9"⟩], none⟩

def env10 : RunEnv := ⟨fun _ => [sampleDetail], fun _ => true⟩

/-- C10 counterexample: the date string `"0001-01-01"` is parseable (the
second format parses it, to 0001-01-01), yet because the parsed value
equals the sentinel `datetime.min`, the inserted row carries a null date
instead of the claimed `"0001-01-01"` — so "parseable dates are written
formatted" fails at this input. -/
theorem sentinel_date_counterexample :
    strptime "%Y-%m-%d" "0001-01-01" = some datetime_min
    ∧ parse_event_date ⟨none, [("meet", some "Old"), ("date", some "0001-01-01")]⟩
        = datetime_min
    ∧ (main_run [ev10] (some []) (some []) env10).inserted.map
        (fun b => b.map Row.date) = [[none]] := by
  decide

/-- C10 amended: an inserted row's date is null exactly when the event's
resolved date equals the sentinel minimal date (field missing, unparseable,
or the literal date 0001-01-01); any date string written is the
`YYYY-MM-DD` rendering of a resolved date strictly above the sentinel, so
the sentinel itself is never formatted into a row. -/
theorem date_written_iff_after_sentinel :
    (∀ e : DataDict, meet_date_for_db e = none ↔ parse_event_date e = datetime_min)
    ∧ (∀ (e : DataDict) (str : String), meet_date_for_db e = some str →
        str = strftimeYMD (parse_event_date e)
        ∧ pyDateLt datetime_min (parse_event_date e) = true)
    ∧ (∀ (env : RunEnv) (existing : List String) (cands : List Candidate)
        (startId : Int), ∀ b ∈ (run_main_loop env existing cands startId).inserted,
        ∀ r ∈ b, r.date = none ∨ ∃ e : DataDict,
          r.date = some (strftimeYMD (parse_event_date e))
          ∧ pyDateLt datetime_min (parse_event_date e) = true) := by
  refine ⟨?_, ?_, ?_⟩
  · intro e
    unfold meet_date_for_db
    by_cases h : pyDateLt datetime_min (parse_event_date e) = true
    · rw [if_pos h]
      constructor
      · intro hc
        exact Option.noConfusion hc
      · intro hc
        rw [hc] at h
        exact absurd h (by decide)
    · rw [if_neg h]
      have hb : pyDateLt datetime_min (parse_event_date e) = false := by
        cases hx : pyDateLt datetime_min (parse_event_date e)
        · rfl
        · exact absurd hx h
      exact ⟨fun _ => (pyDateLt_min_eq_iff _ (parse_event_date_pos e)).mp hb,
             fun _ => rfl⟩
  · intro e str hsome
    unfold meet_date_for_db at hsome
    by_cases h : pyDateLt datetime_min (parse_event_date e) = true
    · rw [if_pos h] at hsome
      injection hsome with hsome
      exact ⟨hsome.symm, h⟩
    · rw [if_neg h] at hsome
      exact Option.noConfusion hsome
  · intro env existing cands startId
    exact run_dates_shape env existing cands startId

/-- C10 amended witness: the concrete record dated `"2024-03-05"` has its
written date equal to the formatted resolved date, which is above the
sentinel. -/
theorem date_written_iff_after_sentinel_witness :
    "2024-03-05" = strftimeYMD (parse_event_date ⟨none, [("date", some "2024-03-05")]⟩)
    ∧ pyDateLt datetime_min (parse_event_date ⟨none, [("date", some "2024-03-05")]⟩)
      = true :=
  date_written_iff_after_sentinel.2.1 ⟨none, [("date", some "2024-03-05")]⟩
    "2024-03-05" (by decide)

end Sport80
